import Mathlib

/-!
Verification development for the jobly backend core: the partial-update SQL
generation helper (`helpers/sql.js`), the job filter query builder and the
Job resource accessors (`models/job.js`), and the company filter validation.

JavaScript objects used as field maps preserve string-key insertion order, so
field maps are embedded as association lists `List (String × v)`.  Values that
flow through SQL parameter lists are embedded as `JsValue`; the node-postgres
driver returns NUMERIC columns as decimal strings, which the model surfaces
through the `vStr` constructor, and JavaScript `parseFloat` converts such a
string to a floating-point number, abstracted here as `vFloat` tagged with the
source text (the claims concern which values are converted, not float
arithmetic).
-/

/-- A JavaScript runtime value as it appears in SQL parameter lists and in
returned records: a string, an integer, a floating-point number obtained by
parsing the given decimal text, or null. -/
inductive JsValue where
  | vStr (s : String)
  | vInt (n : Int)
  | vFloat (s : String)
  | vNull
  deriving DecidableEq, Repr

/-- JavaScript `parseFloat` as applied by the model layer to equity values:
on a decimal string it yields the corresponding floating-point number
(abstracted as `vFloat` tagged with the text parsed). -/
def jsParseFloat : JsValue → JsValue
  | .vStr s => .vFloat s
  | .vInt n => .vFloat (toString n)
  | .vFloat s => .vFloat s
  | .vNull => .vFloat "NaN"

/-- Property lookup `m[k]` on an object embedded as an association list:
`some` of the first binding's value, `none` when the key is absent
(JavaScript `undefined`). -/
def lookupStr (m : List (String × String)) (k : String) : Option String :=
  (m.find? (fun p => p.1 = k)).map Prod.snd

/-- The column-name resolution `jsToSql[colName] || colName` from
`helpers/sql.js` line 33: JavaScript `||` falls back when the left operand is
falsy, i.e. when the key is absent (`undefined`) or maps to the empty
string. -/
def jsOrFallback (m : List (String × String)) (k : String) : String :=
  match lookupStr m k with
  | some s => if s = "" then k else s
  | none => k

/-- `sqlForPartialUpdate(dataToUpdate, jsToSql)` from `helpers/sql.js`
lines 27-40: throws `BadRequestError("No data")` when the field map is empty,
otherwise returns the `setCols` fragment `"<col1>"=$1, "<col2>"=$2, ...`
(column names resolved via `jsToSql[colName] || colName`) and the value list
`Object.values(dataToUpdate)`. -/
def sqlForPartialUpdate (dataToUpdate : List (String × v))
    (jsToSql : List (String × String)) : Except String (String × List v) :=
  let keys := dataToUpdate.map Prod.fst
  if keys.length = 0 then .error "No data"
  else
    let cols := keys.enum.map
      (fun p => "\"" ++ jsOrFallback jsToSql p.2 ++ "\"=$" ++ toString (p.1 + 1))
    .ok (String.intercalate ", " cols, dataToUpdate.map Prod.snd)

/-- The optional filter criteria accepted by `Job.findAll`
(`models/job.js` line 43); `none` is JavaScript `undefined` (absent). -/
structure FindAllFilters where
  title : Option String := none
  minSalary : Option Int := none
  hasEquity : Option Bool := none
  companyHandle : Option String := none
  deriving DecidableEq, Repr

/-- JavaScript truthiness of an optional string criterion (`if (title)`,
`if (companyHandle)`): present and non-empty. -/
def strTruthy : Option String → Bool
  | some s => !(s = "")
  | none => false

/-- The values pushed onto `queryValues` by `Job.findAll`: `%title%` and
`companyHandle` are strings, `minSalary` a number. -/
abbrev QueryVal := JsValue

/-- The `whereExpressions` and `queryValues` lists built by `Job.findAll`
(`models/job.js` lines 46-66), in source order: `title` (truthy) pushes
`%title%` and `title ILIKE $n`; `minSalary` (`!== undefined`) pushes the
threshold and `salary >= $n`; `hasEquity === true` pushes `equity > 0` with no
value; `companyHandle` (truthy) pushes the handle and `company_handle = $n`;
each `$n` is `queryValues.length` after the push. -/
def findAllWhere (f : FindAllFilters) : List String × List QueryVal :=
  let we0 : List String := []
  let qv0 : List QueryVal := []
  let (we1, qv1) :=
    match f.title with
    | some t =>
      if t = "" then (we0, qv0)
      else
        let qv := qv0 ++ [JsValue.vStr ("%" ++ t ++ "%")]
        (we0 ++ ["title ILIKE $" ++ toString qv.length], qv)
    | none => (we0, qv0)
  let (we2, qv2) :=
    match f.minSalary with
    | some s =>
      let qv := qv1 ++ [JsValue.vInt s]
      (we1 ++ ["salary >= $" ++ toString qv.length], qv)
    | none => (we1, qv1)
  let (we3, qv3) :=
    if f.hasEquity = some true then (we2 ++ ["equity > 0"], qv2) else (we2, qv2)
  match f.companyHandle with
  | some c =>
    if c = "" then (we3, qv3)
    else
      let qv := qv3 ++ [JsValue.vStr c]
      (we3 ++ ["company_handle = $" ++ toString qv.length], qv)
  | none => (we3, qv3)

/-- The base SELECT text of `Job.findAll` (`models/job.js` lines 44-45),
a template literal spanning two lines. -/
def findAllBaseQuery : String :=
  "SELECT id, title, salary, equity, company_handle\n                 FROM jobs"

/-- The full statement text and parameter list produced by `Job.findAll`
(`models/job.js` lines 44-74): the base SELECT, a `WHERE` clause joining the
predicate fragments with `" AND "` only when at least one is present, and the
`ORDER BY title` suffix. -/
def findAllBuild (f : FindAllFilters) : String × List QueryVal :=
  let (whereExpressions, queryValues) := findAllWhere f
  let query :=
    if whereExpressions.length > 0 then
      findAllBaseQuery ++ " WHERE " ++ String.intercalate " AND " whereExpressions
    else findAllBaseQuery
  (query ++ " ORDER BY title", queryValues)

/-- A raw row of the `jobs` table as the store returns it to the model layer:
`id` system-assigned, `salary` an optional integer, `equity` an optional
NUMERIC value surfaced by the driver as decimal text. -/
structure JobRow where
  id : Nat
  title : String
  salary : Option Int
  equity : Option String
  company_handle : String
  deriving DecidableEq, Repr

/-- The backing store for jobs: the table rows plus the next id the store
will assign on insert. -/
structure JobsStore where
  nextId : Nat
  rows : List JobRow
  deriving DecidableEq, Repr

/-- A job record as returned to callers of the model: the raw row with each
field a JavaScript value; `equity` is either the driver's decimal string or,
after normalization, a floating-point number. -/
structure JobRecord where
  id : Nat
  title : String
  salary : Option Int
  equity : Option JsValue
  company_handle : String
  deriving DecidableEq, Repr

/-- The record the driver hands back for a row, before any model-layer
normalization: NUMERIC `equity` arrives as a string. -/
def rowToRecord (r : JobRow) : JobRecord :=
  { id := r.id, title := r.title, salary := r.salary,
    equity := r.equity.map JsValue.vStr, company_handle := r.company_handle }

/-- The equity normalization every `models/job.js` read path applies:
`if (job.equity !== null) job.equity = parseFloat(job.equity)`. -/
def normalizeEquity (j : JobRecord) : JobRecord :=
  match j.equity with
  | none => j
  | some v => { j with equity := some (jsParseFloat v) }

/-- The domain errors raised by the model layer: `BadRequestError` and
`NotFoundError` from `expressError.js`, each carrying its message. -/
inductive JobError where
  | badRequest (msg : String)
  | notFound (msg : String)
  deriving DecidableEq, Repr

/-- The input of `Job.create` (`models/job.js` line 14):
`{ title, salary, equity, company_handle }`, with `equity` the decimal value
the store will hold. -/
structure CreateData where
  title : String
  salary : Option Int
  equity : Option String
  company_handle : String
  deriving DecidableEq, Repr

/-- The duplicate check of `Job.create` (`models/job.js` lines 15-20):
`SELECT title FROM jobs WHERE title = $1 AND company_handle = $2` returns a
row exactly when some stored row matches both. -/
def hasDuplicate (rows : List JobRow) (title company_handle : String) : Bool :=
  rows.any (fun r => r.title = title && r.company_handle = company_handle)

/-- `Job.create` (`models/job.js` lines 14-37): runs the duplicate check and
throws `BadRequestError` if it finds a row; otherwise inserts the row (the
store assigns `nextId`), takes the RETURNING row, applies the equity
normalization and returns the record together with the resulting store. -/
def jobCreate (st : JobsStore) (d : CreateData) : Except JobError (JobRecord × JobsStore) :=
  if hasDuplicate st.rows d.title d.company_handle then
    .error (.badRequest ("Duplicate job: " ++ d.title ++ " already exists for company: "
      ++ d.company_handle))
  else
    let inserted : JobRow :=
      { id := st.nextId, title := d.title, salary := d.salary,
        equity := d.equity, company_handle := d.company_handle }
    .ok (normalizeEquity (rowToRecord inserted),
      { nextId := st.nextId + 1, rows := st.rows ++ [inserted] })

/-- Case-insensitive substring test: the store's evaluation of
`title ILIKE '%t%'`. -/
def ciContains (hay need : String) : Bool :=
  let h := hay.toLower.data
  let n := need.toLower.data
  (List.range (h.length + 1)).any (fun i => (h.drop i).take n.length == n)

/-- Positivity of a NUMERIC decimal text: the store's evaluation of
`equity > 0` on a well-formed non-negative decimal in [0,1]. -/
def decStrPos (s : String) : Bool :=
  !(s.startsWith "-") && s.any (fun c => c.isDigit && c != '0')

/-- The store's evaluation of the conjunction of predicates `findAllWhere`
builds for a row: each effective criterion must hold; SQL comparisons against
NULL are not satisfied. -/
def rowMatches (f : FindAllFilters) (r : JobRow) : Bool :=
  (match f.title with
   | some t => if t = "" then true else ciContains r.title t
   | none => true) &&
  (match f.minSalary with
   | some m => match r.salary with
     | some s => decide (m ≤ s)
     | none => false
   | none => true) &&
  (if f.hasEquity = some true then
     match r.equity with
     | some e => decStrPos e
     | none => false
   else true) &&
  (match f.companyHandle with
   | some c => if c = "" then true else r.company_handle = c
   | none => true)

/-- The ordering relation of the store's `ORDER BY title` (ascending). -/
def titleLe (a b : JobRow) : Prop := a.title ≤ b.title

instance : DecidableRel titleLe := fun a b => inferInstanceAs (Decidable (a.title ≤ b.title))

instance : IsTotal JobRow titleLe := ⟨fun a b => le_total a.title b.title⟩

instance : IsTrans JobRow titleLe := ⟨fun _ _ _ => le_trans⟩

/-- The store's `ORDER BY title` (ascending) on a row set. -/
def sortByTitle (rows : List JobRow) : List JobRow :=
  List.insertionSort titleLe rows

/-- `Job.findAll` (`models/job.js` lines 43-82): the store executes the built
statement — filter by the conjunction of effective predicates, order by title
— and the model maps the equity normalization over the returned rows. -/
def jobFindAll (st : JobsStore) (f : FindAllFilters) : List JobRecord :=
  (sortByTitle (st.rows.filter (rowMatches f))).map
    (fun r => normalizeEquity (rowToRecord r))

/-- The store's evaluation of `WHERE id = $1`: the first matching row,
`undefined` when none matches. -/
def findRow (rows : List JobRow) (id : Nat) : Option JobRow :=
  rows.find? (fun r => r.id = id)

/-- `Job.get` (`models/job.js` lines 90-107): select the row by id, throw
`NotFoundError` when absent, otherwise normalize equity and return. -/
def jobGet (st : JobsStore) (id : Nat) : Except JobError JobRecord :=
  match findRow st.rows id with
  | none => .error (.notFound ("No job: " ++ toString id))
  | some r => .ok (normalizeEquity (rowToRecord r))

/-- The `jsToSql` mapper `Job.update` passes to the builder
(`models/job.js` lines 122-126): title, salary and equity map to
themselves. -/
def jobJsToSql : List (String × String) :=
  [("title", "title"), ("salary", "salary"), ("equity", "equity")]

/-- The exact UPDATE statement text `Job.update` assembles
(`models/job.js` lines 129-132) around a `setCols` fragment and the
placeholder index for the id. -/
def updateSqlText (setCols : String) (jobIdIdx : String) : String :=
  "UPDATE jobs \n                      SET " ++ setCols ++
    " \n                      WHERE id = " ++ jobIdIdx ++
    " \n                      RETURNING id, title, salary, equity, company_handle"

/-- The statement and positional parameters `Job.update` executes
(`models/job.js` lines 119-134): the builder's `setCols` and `values`, the id
placeholder `$<values.length + 1>`, and the parameter list
`[...values, id]`. -/
def jobUpdateQuery (data : List (String × JsValue)) (id : Nat) :
    Except String (String × List JsValue) :=
  match sqlForPartialUpdate data jobJsToSql with
  | .error e => .error e
  | .ok (setCols, values) =>
    let jobIdIdx := "$" ++ toString (values.length + 1)
    .ok (updateSqlText setCols jobIdIdx, values ++ [JsValue.vInt (Int.ofNat id)])

/-- The store's execution of one `<col>=$i` assignment of the update
statement on a row; columns other than the three `Job.update` admits are not
produced by its callers. -/
def setField (r : JobRow) (kv : String × JsValue) : JobRow :=
  match kv with
  | ("title", .vStr s) => { r with title := s }
  | ("salary", .vInt n) => { r with salary := some n }
  | ("salary", .vNull) => { r with salary := none }
  | ("equity", .vStr s) => { r with equity := some s }
  | ("equity", .vInt n) => { r with equity := some (toString n) }
  | ("equity", .vFloat s) => { r with equity := some s }
  | ("equity", .vNull) => { r with equity := none }
  | _ => r

/-- The store's execution of the SET clause on a row: the assignments applied
left to right, each binding the value positionally aligned with its column. -/
def applyAssignments (r : JobRow) (data : List (String × JsValue)) : JobRow :=
  data.foldl setField r

/-- `Job.update` (`models/job.js` lines 119-144): build the SET clause via
`sqlForPartialUpdate` (its empty-map `BadRequestError` propagates), execute
the UPDATE on every row matching the id, take the first RETURNING row, throw
`NotFoundError` when there is none, otherwise normalize equity and return the
updated record with the resulting store. -/
def jobUpdate (st : JobsStore) (id : Nat) (data : List (String × JsValue)) :
    Except JobError (JobRecord × JobsStore) :=
  match sqlForPartialUpdate data jobJsToSql with
  | .error e => .error (.badRequest e)
  | .ok _ =>
    let rows2 := st.rows.map (fun x => if x.id = id then applyAssignments x data else x)
    match findRow rows2 id with
    | none => .error (.notFound ("No job: " ++ toString id))
    | some r => .ok (normalizeEquity (rowToRecord r), { st with rows := rows2 })

/-- `Job.remove` (`models/job.js` lines 150-159): `DELETE ... WHERE id = $1
RETURNING id`; throw `NotFoundError` when no row was returned; the function
itself returns undefined, so the ok value is the resulting store state. -/
def jobRemove (st : JobsStore) (id : Nat) : Except JobError JobsStore :=
  if (st.rows.filter (fun r => r.id = id)).length = 0 then
    .error (.notFound ("No job: " ++ toString id))
  else
    .ok { st with rows := st.rows.filter (fun r => !(r.id = id)) }

/-- A company row: handle, name, and the optional employee count the range
filters inspect. -/
structure CompanyRow where
  handle : String
  name : String
  num_employees : Option Int
  deriving DecidableEq, Repr

/-- The optional filter criteria for the company list endpoint:
`{name?, minEmployees?, maxEmployees?}`. -/
structure CompanyFilters where
  name : Option String := none
  minEmployees : Option Int := none
  maxEmployees : Option Int := none
  deriving DecidableEq, Repr

/-- The store's evaluation of the company filter predicates: name
case-insensitive substring, employee count within the supplied thresholds. -/
def companyRowMatches (f : CompanyFilters) (r : CompanyRow) : Bool :=
  (match f.name with
   | some n => if n = "" then true else ciContains r.name n
   | none => true) &&
  (match f.minEmployees with
   | some m => match r.num_employees with
     | some e => decide (m ≤ e)
     | none => false
   | none => true) &&
  (match f.maxEmployees with
   | some m => match r.num_employees with
     | some e => decide (e ≤ m)
     | none => false
   | none => true)

/-- Modelled from the spec: the company list operation (its route and model
source is not among the provided files; only its tests are). Per the spec,
when both `minEmployees` and `maxEmployees` are supplied and the minimum
exceeds the maximum, the request is rejected with an InvalidInput error whose
message the tests show as "minEmployees cannot be greater than
maxEmployees.", and this check happens before query construction and before
any store access; otherwise the filtered, name-ordered company rows are
returned. -/
def companyFindAll (rows : List CompanyRow) (f : CompanyFilters) :
    Except JobError (List CompanyRow) :=
  match f.minEmployees, f.maxEmployees with
  | some mn, some mx =>
    if mx < mn then
      .error (.badRequest "minEmployees cannot be greater than maxEmployees.")
    else .ok (rows.filter (companyRowMatches f))
  | _, _ => .ok (rows.filter (companyRowMatches f))

/-- The number of effective criteria of a `findAll` filter: a truthy (present
and non-empty) title, a present `minSalary`, `hasEquity` equal to `true`, and
a truthy company handle. -/
def effectiveCriteriaCount (f : FindAllFilters) : Nat :=
  (strTruthy f.title).toNat + f.minSalary.isSome.toNat
    + (f.hasEquity = some true : Bool).toNat + (strTruthy f.companyHandle).toNat

/-- The predicate fragments the specification prescribes, in the fixed order
title, minSalary, hasEquity, companyHandle, with positional parameter numbers
assigned sequentially to the bound criteria in that order and no parameter
bound for the equity flag. -/
def specOrderedFragments (f : FindAllFilters) : List String :=
  let tc := (strTruthy f.title).toNat
  let mc := tc + f.minSalary.isSome.toNat
  (if strTruthy f.title then ["title ILIKE $1"] else []) ++
  (if f.minSalary.isSome then ["salary >= $" ++ toString (tc + 1)] else []) ++
  (if f.hasEquity = some true then ["equity > 0"] else []) ++
  (if strTruthy f.companyHandle then ["company_handle = $" ++ toString (mc + 1)] else [])

instance {e a : Type} [DecidableEq e] [DecidableEq a] : DecidableEq (Except e a) := fun x y =>
  match x, y with
  | .ok u, .ok w =>
    if h : u = w then .isTrue (by rw [h])
    else .isFalse (fun c => h (by injection c))
  | .ok _, .error _ => .isFalse (fun c => Except.noConfusion c)
  | .error _, .ok _ => .isFalse (fun c => Except.noConfusion c)
  | .error u, .error w =>
    if h : u = w then .isTrue (by rw [h])
    else .isFalse (fun c => h (by injection c))

/-- On a non-empty field map the builder succeeds, with the fragment built
from the enumerated keys and the values taken in key order. -/
theorem sqlForPartialUpdate_ok {v : Type} (d : List (String × v))
    (m : List (String × String)) (h : d ≠ []) :
    sqlForPartialUpdate d m
      = .ok (String.intercalate ", " ((d.map Prod.fst).enum.map
          (fun p => "\"" ++ jsOrFallback m p.2 ++ "\"=$" ++ toString (p.1 + 1))),
          d.map Prod.snd) := by
  unfold sqlForPartialUpdate
  rw [if_neg (by simpa using h)]

/-- A single SET assignment never changes the row id. -/
theorem setField_id (r : JobRow) (kv : String × JsValue) : (setField r kv).id = r.id := by
  unfold setField
  split <;> rfl

/-- Applying a whole SET clause never changes the row id. -/
theorem applyAssignments_id (r : JobRow) (data : List (String × JsValue)) :
    (applyAssignments r data).id = r.id := by
  induction data generalizing r with
  | nil => rfl
  | cons kv rest ih =>
    show (applyAssignments (setField r kv) rest).id = r.id
    rw [ih, setField_id]

/-- Looking a row up by id after the UPDATE touched the rows with that id
finds exactly the updated image of the row the lookup found before. -/
theorem findRow_updateRows (rows : List JobRow) (id : Nat) (data : List (String × JsValue)) :
    findRow (rows.map (fun x => if x.id = id then applyAssignments x data else x)) id
      = (findRow rows id).map (fun x => if x.id = id then applyAssignments x data else x) := by
  unfold findRow
  rw [List.find?_map]
  have hfun : ((fun (r : JobRow) => decide (r.id = id))
      ∘ (fun x => if x.id = id then applyAssignments x data else x))
      = fun (r : JobRow) => decide (r.id = id) := by
    funext x
    by_cases h : x.id = id <;> simp [h, applyAssignments_id]
  rw [hfun]

/-- A stored row surfaces through the read normalization with its equity
mapped to the parsed floating-point value exactly when it was non-null. -/
theorem normalizeEquity_rowToRecord (r : JobRow) :
    (normalizeEquity (rowToRecord r)).equity = r.equity.map JsValue.vFloat := by
  rcases r with ⟨i, t, s, e, c⟩
  cases e <;> rfl

/-- The read normalization leaves the title unchanged. -/
theorem normalizeEquity_rowToRecord_title (r : JobRow) :
    (normalizeEquity (rowToRecord r)).title = r.title := by
  rcases r with ⟨i, t, s, e, c⟩
  cases e <;> rfl

/-- Claim C1: for every non-empty field map and every field mapper,
`sqlForPartialUpdate` returns the fragment obtained by joining one
`"<col>"=$<i+1>` entry per key with `", "`, where the i-th entry's column is
the mapper's resolution of the i-th key of the map, the entry list has
exactly one placeholder per key, and the returned values are exactly the
map's values in key order, so the value at position i is bound to
placeholder `$i+1`. -/
theorem sqlForPartialUpdate_fragment_shape {v : Type} (d : List (String × v))
    (m : List (String × String)) (hne : d ≠ []) :
    ∃ cols : List String,
      sqlForPartialUpdate d m = .ok (String.intercalate ", " cols, d.map Prod.snd) ∧
      cols.length = d.length ∧
      ∀ i, i < d.length →
        ∃ k w, d[i]? = some (k, w) ∧
          cols[i]? = some ("\"" ++ jsOrFallback m k ++ "\"=$" ++ toString (i + 1)) := by
  refine ⟨(d.map Prod.fst).enum.map
    (fun p => "\"" ++ jsOrFallback m p.2 ++ "\"=$" ++ toString (p.1 + 1)), ?_, ?_, ?_⟩
  · exact sqlForPartialUpdate_ok d m hne
  · simp
  · intro i hi
    refine ⟨(d.get ⟨i, hi⟩).1, (d.get ⟨i, hi⟩).2, ?_, ?_⟩
    · simp [List.getElem?_eq_getElem hi]
    · rw [List.getElem?_map, List.getElem?_enum, List.getElem?_map,
        List.getElem?_eq_getElem hi]
      simp

/-- Witness for C1 at the spec's two-field example map. -/
theorem sqlForPartialUpdate_fragment_shape_witness :
    ∃ cols : List String,
      sqlForPartialUpdate [("firstName", ("John" : String)), ("age", "30")]
        [("firstName", "first_name")]
        = .ok (String.intercalate ", " cols, ["John", "30"]) ∧
      cols.length = 2 ∧
      ∀ i, i < 2 → ∃ k w,
        ([("firstName", ("John" : String)), ("age", "30")])[i]? = some (k, w) ∧
        cols[i]? = some ("\"" ++ jsOrFallback [("firstName", "first_name")] k
          ++ "\"=$" ++ toString (i + 1)) :=
  sqlForPartialUpdate_fragment_shape _ _ (by decide)

/-- Claim C2: `sqlForPartialUpdate` fails with the `BadRequestError`
message "No data" exactly on the empty field map, that is its only error,
and every non-empty map yields a result. -/
theorem sqlForPartialUpdate_noData_iff_empty {v : Type} (d : List (String × v))
    (m : List (String × String)) :
    (sqlForPartialUpdate d m = .error "No data" ↔ d = []) ∧
    (∀ e, sqlForPartialUpdate d m = .error e → e = "No data") ∧
    (d ≠ [] → ∃ frag vals, sqlForPartialUpdate d m = .ok (frag, vals)) := by
  cases d with
  | nil => simp [sqlForPartialUpdate]
  | cons a l => simp [sqlForPartialUpdate]

/-- Witness for C2 on a one-field map. -/
theorem sqlForPartialUpdate_noData_iff_empty_witness :
    ∃ frag vals, sqlForPartialUpdate [("firstName", "John")] [("firstName", "first_name")]
      = .ok (frag, vals) :=
  (sqlForPartialUpdate_noData_iff_empty _ _).2.2 (by decide)

/-- Claim C3 counterexample: a `hasEquity` criterion equal to `false` is
present (not absent/undefined), yet `Job.findAll` builds zero predicate
fragments for it, so the number of fragments does not equal the number of
present criteria. -/
theorem findAll_present_criteria_count_cex :
    (FindAllFilters.mk none none (some false) none).hasEquity.isSome = true ∧
    (findAllWhere (FindAllFilters.mk none none (some false) none)).1.length = 0 := by
  decide

/-- Claim C3 (amended): the number of predicate fragments built by
`Job.findAll` equals the number of effective criteria — a present non-empty
title, a present minSalary, hasEquity equal to `true`, a present non-empty
companyHandle — and when no criteria are supplied the predicate list has
length zero and the unfiltered full result set is selected. -/
theorem findAll_effective_criteria_count :
    (∀ f, (findAllWhere f).1.length = effectiveCriteriaCount f) ∧
    findAllWhere {} = ([], []) ∧
    findAllBuild {} = (findAllBaseQuery ++ " ORDER BY title", []) ∧
    ∀ st : JobsStore, jobFindAll st {}
      = (sortByTitle st.rows).map (fun r => normalizeEquity (rowToRecord r)) := by
  refine ⟨?_, rfl, rfl, ?_⟩
  · intro f
    obtain ⟨t, ms, he, ch⟩ := f
    rcases t with _ | t <;> rcases ms with _ | ms <;> rcases he with _ | he <;>
      rcases ch with _ | ch <;>
      simp [findAllWhere, effectiveCriteriaCount, strTruthy] <;>
      split_ifs <;> simp_all
  · intro st
    unfold jobFindAll
    have hf : st.rows.filter (rowMatches {}) = st.rows :=
      List.filter_eq_self.mpr (fun a _ => rfl)
    rw [hf]

/-- Claim C4: `Job.findAll` evaluates the criteria in the fixed order title,
minSalary, hasEquity, companyHandle, assigning positional parameter numbers
sequentially in that order; the hasEquity criterion becomes `equity > 0` with
no bound parameter (the parameter count is the count of the other effective
criteria); the fragments are joined with `" AND "` after the base query; and
the statement orders by title, the returned result set being sorted by title
ascending. -/
theorem findAll_fixed_order_params :
    (∀ f, (findAllWhere f).1 = specOrderedFragments f) ∧
    (∀ f, (findAllWhere f).2.length
      = (strTruthy f.title).toNat + f.minSalary.isSome.toNat
        + (strTruthy f.companyHandle).toNat) ∧
    (∀ f, (findAllBuild f).1 =
      (if (findAllWhere f).1 = [] then findAllBaseQuery
       else findAllBaseQuery ++ " WHERE " ++ String.intercalate " AND " (findAllWhere f).1)
      ++ " ORDER BY title") ∧
    (∀ f, ∀ st : JobsStore, ((jobFindAll st f).map JobRecord.title).Sorted (· ≤ ·)) := by
  refine ⟨?_, ?_, ?_, ?_⟩
  · intro f
    obtain ⟨t, ms, he, ch⟩ := f
    rcases t with _ | t <;> rcases ms with _ | ms <;> rcases he with _ | he <;>
      rcases ch with _ | ch <;>
      simp [findAllWhere, specOrderedFragments, strTruthy] <;>
      split_ifs <;> simp_all <;> rfl
  · intro f
    obtain ⟨t, ms, he, ch⟩ := f
    rcases t with _ | t <;> rcases ms with _ | ms <;> rcases he with _ | he <;>
      rcases ch with _ | ch <;>
      simp [findAllWhere, strTruthy] <;>
      split_ifs <;> simp_all
  · intro f
    obtain ⟨t, ms, he, ch⟩ := f
    rcases t with _ | t <;> rcases ms with _ | ms <;> rcases he with _ | he <;>
      rcases ch with _ | ch <;>
      simp [findAllWhere, findAllBuild, strTruthy] <;>
      split_ifs <;> simp_all
  · intro f st
    unfold jobFindAll sortByTitle
    rw [List.map_map]
    have hs := List.sorted_insertionSort titleLe (st.rows.filter (rowMatches f))
    have hmono : ∀ a b : JobRow, titleLe a b →
        ((JobRecord.title ∘ fun r => normalizeEquity (rowToRecord r)) a
          ≤ (JobRecord.title ∘ fun r => normalizeEquity (rowToRecord r)) b) := by
      intro a b hab
      simp only [Function.comp, normalizeEquity_rowToRecord_title]
      exact hab
    exact List.Pairwise.map _ hmono hs

/-- Claim C5 counterexample: with the field mapper binding "a" to the empty
string a mapping for "a" exists, yet the fragment uses the key "a" itself
rather than the mapped column name "", because JavaScript `||` treats the
empty string as falsy. -/
theorem fieldMapper_mapped_empty_cex :
    lookupStr [("a", "")] "a" = some "" ∧
    sqlForPartialUpdate [("a", "x")] [("a", "")] = .ok ("\"a\"=$1", ["x"]) ∧
    jsOrFallback [("a", "")] "a" ≠ "" := by
  decide

/-- Claim C5 (amended): the column name used by `sqlForPartialUpdate` is the
mapped internal column name when a mapping to a truthy (non-empty) name
exists, and is the public field name itself when no mapping exists or the
mapped name is the empty string; unmapped keys are not an error — a
singleton map on any key succeeds with the resolved column. -/
theorem fieldMapper_identity_fallback (m : List (String × String)) (k : String) :
    (lookupStr m k = none → jsOrFallback m k = k) ∧
    (∀ s, lookupStr m k = some s → jsOrFallback m k = if s = "" then k else s) ∧
    (∀ w : String, sqlForPartialUpdate [(k, w)] m
      = .ok ("\"" ++ jsOrFallback m k ++ "\"=$" ++ toString (1 : Nat), [w])) := by
  refine ⟨?_, ?_, ?_⟩
  · intro h; unfold jsOrFallback; rw [h]
  · intro s h; unfold jsOrFallback; rw [h]
  · intro w; rfl

/-- Witness for C5 (amended) on an unmapped key and a mapped key. -/
theorem fieldMapper_identity_fallback_witness :
    jsOrFallback [("firstName", "first_name")] "age" = "age" ∧
    jsOrFallback [("firstName", "first_name")] "firstName" = "first_name" ∧
    sqlForPartialUpdate [("age", ("30" : String))] [("firstName", "first_name")]
      = .ok ("\"" ++ jsOrFallback [("firstName", "first_name")] "age" ++ "\"=$"
          ++ toString (1 : Nat), ["30"]) := by
  refine ⟨(fieldMapper_identity_fallback _ "age").1 (by decide), ?_,
    (fieldMapper_identity_fallback _ "age").2.2 "30"⟩
  have h := (fieldMapper_identity_fallback [("firstName", "first_name")] "firstName").2.1
    "first_name" (by decide)
  simpa using h

/-- Claim C6: `Job.create` fails with the duplicate `BadRequestError` exactly
when a row with the same title and company handle already exists (the check
precedes the insert), otherwise inserts the row and returns the stored
record; and a second create with identical title and company after a
successful create fails with the duplicate error. -/
theorem jobCreate_duplicate_check (st : JobsStore) (d : CreateData) :
    (hasDuplicate st.rows d.title d.company_handle = true →
      jobCreate st d = .error (.badRequest ("Duplicate job: " ++ d.title
        ++ " already exists for company: " ++ d.company_handle))) ∧
    (hasDuplicate st.rows d.title d.company_handle = false →
      ∃ j st2, jobCreate st d = .ok (j, st2) ∧
        st2.rows = st.rows ++ [⟨st.nextId, d.title, d.salary, d.equity, d.company_handle⟩]) ∧
    (∀ j st2, jobCreate st d = .ok (j, st2) →
      ∃ msg, jobCreate st2 d = .error (.badRequest msg)) := by
  refine ⟨?_, ?_, ?_⟩
  · intro h; simp [jobCreate, h]
  · intro h
    refine ⟨normalizeEquity (rowToRecord
        ⟨st.nextId, d.title, d.salary, d.equity, d.company_handle⟩),
      ⟨st.nextId + 1,
        st.rows ++ [⟨st.nextId, d.title, d.salary, d.equity, d.company_handle⟩]⟩, ?_, rfl⟩
    simp [jobCreate, h]
  · intro j st2 hok
    by_cases h : hasDuplicate st.rows d.title d.company_handle
    · simp [jobCreate, h] at hok
    · simp [jobCreate, h] at hok
      obtain ⟨-, hst⟩ := hok
      have hdup : hasDuplicate st2.rows d.title d.company_handle = true := by
        rw [← hst]
        simp [hasDuplicate]
      exact ⟨"Duplicate job: " ++ d.title ++ " already exists for company: "
        ++ d.company_handle, by simp [jobCreate, hdup]⟩

/-- Witness for C6: the spec's example — creating "New Job" at company "c1"
twice, the second call failing with the duplicate error. -/
theorem jobCreate_duplicate_check_witness :
    ∃ msg, jobCreate ⟨2, [⟨1, "New Job", some 50000, some "0.05", "c1"⟩]⟩
      ⟨"New Job", some 50000, some "0.05", "c1"⟩ = .error (.badRequest msg) :=
  (jobCreate_duplicate_check ⟨1, []⟩ ⟨"New Job", some 50000, some "0.05", "c1"⟩).2.2
    ⟨1, "New Job", some 50000, some (JsValue.vFloat "0.05"), "c1"⟩
    ⟨2, [⟨1, "New Job", some 50000, some "0.05", "c1"⟩]⟩ (by decide)

/-- Claim C7: `Job.get`, `Job.update` (on a non-empty payload) and
`Job.remove` fail with `NotFoundError` exactly when no row with the id
exists; when the row exists, get returns its normalized record, remove
deletes it, and update applies the builder-generated SET clause to it and
returns the updated record; and the executed update statement appends the id
as the final positional parameter `$<values.length + 1>`. -/
theorem job_accessors_notFound_iff_missing (st : JobsStore) (id : Nat) :
    (findRow st.rows id = none →
      jobGet st id = .error (.notFound ("No job: " ++ toString id)) ∧
      jobRemove st id = .error (.notFound ("No job: " ++ toString id)) ∧
      ∀ data : List (String × JsValue), data ≠ [] →
        jobUpdate st id data = .error (.notFound ("No job: " ++ toString id))) ∧
    (∀ r, findRow st.rows id = some r →
      jobGet st id = .ok (normalizeEquity (rowToRecord r)) ∧
      (∃ st2, jobRemove st id = .ok st2 ∧
        st2.rows = st.rows.filter (fun x => !(x.id = id))) ∧
      ∀ data : List (String × JsValue), data ≠ [] →
        jobUpdate st id data
          = .ok (normalizeEquity (rowToRecord (applyAssignments r data)),
              ⟨st.nextId,
               st.rows.map (fun x => if x.id = id then applyAssignments x data else x)⟩)) ∧
    (∀ data : List (String × JsValue), data ≠ [] →
      ∃ setCols values,
        sqlForPartialUpdate data jobJsToSql = .ok (setCols, values) ∧
        values = data.map Prod.snd ∧
        jobUpdateQuery data id
          = .ok (updateSqlText setCols ("$" ++ toString (values.length + 1)),
              values ++ [JsValue.vInt (Int.ofNat id)])) := by
  refine ⟨?_, ?_, ?_⟩
  · intro h
    refine ⟨?_, ?_, ?_⟩
    · unfold jobGet; rw [h]
    · have hnil : st.rows.filter (fun r => r.id = id) = [] :=
        List.filter_eq_nil_iff.mpr (List.find?_eq_none.mp h)
      simp [jobRemove, hnil]
    · intro data hd
      simp [jobUpdate, sqlForPartialUpdate_ok data _ hd, findRow_updateRows, h]
  · intro r h
    have hid : r.id = id := by simpa using List.find?_some h
    refine ⟨?_, ?_, ?_⟩
    · unfold jobGet; rw [h]
    · have hmem : r ∈ st.rows.filter (fun x => x.id = id) :=
        List.mem_filter.mpr ⟨List.mem_of_find?_eq_some h, by simpa using hid⟩
      have hne : (st.rows.filter (fun x => x.id = id)).length ≠ 0 := by
        intro hz
        rw [List.length_eq_zero] at hz
        rw [hz] at hmem
        exact absurd hmem (List.not_mem_nil r)
      refine ⟨⟨st.nextId, st.rows.filter (fun x => !(x.id = id))⟩, ?_, rfl⟩
      simp [jobRemove, hne]
    · intro data hd
      have hrow : findRow
          (st.rows.map (fun x => if x.id = id then applyAssignments x data else x)) id
          = some (applyAssignments r data) := by
        rw [findRow_updateRows, h]
        simp [hid]
      simp [jobUpdate, sqlForPartialUpdate_ok data _ hd, hrow]
  · intro data hd
    refine ⟨_, _, sqlForPartialUpdate_ok data _ hd, rfl, ?_⟩
    simp [jobUpdateQuery, sqlForPartialUpdate_ok data _ hd]

/-- Witness for C7 on a one-row store: get succeeds on the stored id, fails
as not-found on a missing id, and the update statement for a title change
binds the id as the final parameter. -/
theorem job_accessors_notFound_iff_missing_witness :
    jobGet ⟨2, [⟨7, "Job1", some 100, some "0", "c1"⟩]⟩ 7
      = .ok (normalizeEquity (rowToRecord ⟨7, "Job1", some 100, some "0", "c1"⟩)) ∧
    jobGet ⟨2, [⟨7, "Job1", some 100, some "0", "c1"⟩]⟩ 9
      = .error (.notFound ("No job: " ++ toString 9)) ∧
    (∃ setCols values,
      sqlForPartialUpdate [("title", JsValue.vStr "Updated Job")] jobJsToSql
        = .ok (setCols, values) ∧
      values = [("title", JsValue.vStr "Updated Job")].map Prod.snd ∧
      jobUpdateQuery [("title", JsValue.vStr "Updated Job")] 7
        = .ok (updateSqlText setCols ("$" ++ toString (values.length + 1)),
            values ++ [JsValue.vInt (Int.ofNat 7)])) :=
  ⟨((job_accessors_notFound_iff_missing ⟨2, [⟨7, "Job1", some 100, some "0", "c1"⟩]⟩ 7).2.1
      _ rfl).1,
   ((job_accessors_notFound_iff_missing ⟨2, [⟨7, "Job1", some 100, some "0", "c1"⟩]⟩ 9).1
      rfl).1,
   (job_accessors_notFound_iff_missing ⟨2, [⟨7, "Job1", some 100, some "0", "c1"⟩]⟩ 7).2.2
     [("title", JsValue.vStr "Updated Job")] (by decide)⟩

/-- Claim C8: every Job read path — create, findAll, get, update — returns
records whose equity is the stored row's equity passed through `parseFloat`
when non-null (and null otherwise): numeric normalization is applied on every
read. -/
theorem job_read_paths_equity_float (st : JobsStore) :
    (∀ d j st2, jobCreate st d = .ok (j, st2) → j.equity = d.equity.map JsValue.vFloat) ∧
    (∀ f rec, rec ∈ jobFindAll st f →
      ∃ r, r ∈ st.rows ∧ rec = normalizeEquity (rowToRecord r) ∧
        rec.equity = r.equity.map JsValue.vFloat) ∧
    (∀ id j, jobGet st id = .ok j →
      ∃ r, findRow st.rows id = some r ∧ j = normalizeEquity (rowToRecord r) ∧
        j.equity = r.equity.map JsValue.vFloat) ∧
    (∀ id data j st2, jobUpdate st id data = .ok (j, st2) →
      ∃ r, r ∈ st2.rows ∧ j = normalizeEquity (rowToRecord r) ∧
        j.equity = r.equity.map JsValue.vFloat) := by
  refine ⟨?_, ?_, ?_, ?_⟩
  · intro d j st2 hok
    by_cases h : hasDuplicate st.rows d.title d.company_handle
    · simp [jobCreate, h] at hok
    · simp [jobCreate, h] at hok
      obtain ⟨hj, -⟩ := hok
      rw [← hj, normalizeEquity_rowToRecord]
  · intro f rec hmem
    unfold jobFindAll sortByTitle at hmem
    rw [List.mem_map] at hmem
    obtain ⟨r, hr, hrec⟩ := hmem
    have hr2 : r ∈ st.rows.filter (rowMatches f) :=
      ((List.perm_insertionSort titleLe (st.rows.filter (rowMatches f))).mem_iff).mp hr
    exact ⟨r, List.mem_of_mem_filter hr2, hrec.symm,
      by rw [← hrec, normalizeEquity_rowToRecord]⟩
  · intro id j hok
    unfold jobGet at hok
    cases h : findRow st.rows id with
    | none => rw [h] at hok; cases hok
    | some r =>
      rw [h] at hok
      have hj : normalizeEquity (rowToRecord r) = j := by
        injection hok
      exact ⟨r, rfl, hj.symm, by rw [← hj, normalizeEquity_rowToRecord]⟩
  · intro id data j st2 hok
    unfold jobUpdate at hok
    split at hok
    · cases hok
    · dsimp only at hok
      split at hok
      · cases hok
      · rename_i setvals r hfr
        have hj : normalizeEquity (rowToRecord r) = j := by
          injection hok with h1
          exact congrArg Prod.fst h1
        have hst : (⟨st.nextId, st.rows.map
            (fun x => if x.id = id then applyAssignments x data else x)⟩ : JobsStore)
            = st2 := by
          injection hok with h1
          exact congrArg Prod.snd h1
        refine ⟨r, ?_, hj.symm, by rw [← hj, normalizeEquity_rowToRecord]⟩
        rw [← hst]
        exact List.mem_of_find?_eq_some hfr

/-- Witness for C8: getting a stored job whose equity column holds "0.1"
returns it as the parsed floating-point value. -/
theorem job_read_paths_equity_float_witness :
    ∃ r, findRow [⟨7, "Job2", some 200, some "0.1", "c2"⟩] 7 = some r ∧
      (⟨7, "Job2", some 200, some (JsValue.vFloat "0.1"), "c2"⟩ : JobRecord)
        = normalizeEquity (rowToRecord r) ∧
      (⟨7, "Job2", some 200, some (JsValue.vFloat "0.1"), "c2"⟩ : JobRecord).equity
        = r.equity.map JsValue.vFloat :=
  (job_read_paths_equity_float ⟨2, [⟨7, "Job2", some 200, some "0.1", "c2"⟩]⟩).2.2.1 7
    ⟨7, "Job2", some 200, some (JsValue.vFloat "0.1"), "c2"⟩ (by rfl)

/-- Claim C9 (modelled from the spec, the company list source being absent
from the provided files): when both minEmployees and maxEmployees are
supplied and the minimum exceeds the maximum, the company list operation
fails with the InvalidInput error, and the result is independent of the
store — no store access influences it. -/
theorem companyFindAll_minmax_invalid (rows : List CompanyRow) (f : CompanyFilters)
    (mn mx : Int) (hmn : f.minEmployees = some mn) (hmx : f.maxEmployees = some mx)
    (h : mx < mn) :
    companyFindAll rows f
      = .error (.badRequest "minEmployees cannot be greater than maxEmployees.") ∧
    ∀ rows2, companyFindAll rows2 f = companyFindAll rows f := by
  have herr : ∀ rs : List CompanyRow, companyFindAll rs f
      = .error (.badRequest "minEmployees cannot be greater than maxEmployees.") := by
    intro rs
    unfold companyFindAll
    rw [hmn, hmx]
    simp [h]
  exact ⟨herr rows, fun rows2 => by rw [herr rows2, herr rows]⟩

/-- Witness for C9 at the spec's example thresholds minEmployees=100,
maxEmployees=50. -/
theorem companyFindAll_minmax_invalid_witness :
    companyFindAll [] { name := none, minEmployees := some 100, maxEmployees := some 50 }
      = .error (.badRequest "minEmployees cannot be greater than maxEmployees.") :=
  (companyFindAll_minmax_invalid [] _ 100 50 rfl rfl (by norm_num)).1

/-- Claim C10: an empty-string title criterion, an empty-string companyHandle
criterion, and a hasEquity criterion other than `true` each contribute no
predicate and no parameter — those three `findAll` calls build the identical
statement text and parameter list as the call with no criteria at all. -/
theorem findAll_falsy_criteria_no_predicate :
    findAllBuild { title := some "" } = findAllBuild {} ∧
    findAllBuild { companyHandle := some "" } = findAllBuild {} ∧
    findAllBuild { hasEquity := some false } = findAllBuild {} := by
  refine ⟨rfl, rfl, rfl⟩
